import Mathlib

set_option maxRecDepth 8000

/-!
Shallow embedding of the domain-availability resolution core of
`src/api/check-domains.js` (the `handler` function and its helper
`rdapCheck`), together with proofs settling the frozen claims about it.

Strings are modelled as `List Char`.  JavaScript `toLowerCase` is modelled
on the ASCII range (the only range the validation regex can accept),
`trim` by stripping the JS whitespace characters at both ends, and the two
regular expressions of the source by explicit scanners whose leftmost-match
behaviour is spelled out definitionally.  Network effects (the Namecheap
fetch, the IANA bootstrap fetch, the per-domain RDAP GET) are oracles
supplied as explicit `Except` values, `Except.error` standing for any
thrown transport error, timeout or body-decoding failure caught by the
surrounding `try`/`catch`.  Numbers produced by `parseFloat` are modelled
exactly as rationals (plus an `Infinity` constructor); `NaN` is `none`.
-/

/-- Strings of the model: JavaScript strings as lists of characters. -/
abbrev Str := List Char

/-- Coerce a Lean string literal into the model's string type. -/
def str (s : String) : Str := s.data

/-- ASCII lowercase letter, used by the `[a-z]` character class. -/
def isLowerAlpha (c : Char) : Bool := 97 ≤ c.toNat && c.toNat ≤ 122

/-- ASCII digit, used by the `[0-9]` part of the character classes. -/
def isDigitC (c : Char) : Bool := 48 ≤ c.toNat && c.toNat ≤ 57

/-- Character admitted inside the first label by `[a-z0-9-]`. -/
def isLabelChar (c : Char) : Bool := isLowerAlpha c || isDigitC c || c.toNat = 45

/-- Character admitted as the first character of a domain by `[a-z0-9]`. -/
def isLowerAlnum (c : Char) : Bool := isLowerAlpha c || isDigitC c

/-- JavaScript whitespace stripped by `String.prototype.trim` (the code
points relevant to this model, compared by code point). -/
def isSpaceJs (c : Char) : Bool :=
  c.toNat = 32 || c.toNat = 9 || c.toNat = 10 || c.toNat = 13 ||
  c.toNat = 11 || c.toNat = 12 || c.toNat = 160 || c.toNat = 65279

/-- JavaScript `toLowerCase`, modelled on the ASCII letters. -/
def lowerChar (c : Char) : Char :=
  if 65 ≤ c.toNat ∧ c.toNat ≤ 90 then Char.ofNat (c.toNat + 32) else c

/-- JavaScript `String.prototype.trim`: drop JS whitespace at both ends. -/
def jsTrim (s : Str) : Str :=
  ((s.dropWhile isSpaceJs).reverse.dropWhile isSpaceJs).reverse

/-- The per-entry normalisation `String(d).toLowerCase().trim()` of
check-domains.js line 23. -/
def normalise (s : Str) : Str := jsTrim (s.map lowerChar)

/-- The validation regex test of check-domains.js line 24:
`/^[a-z0-9][a-z0-9\-]*\.[a-z]{2,}$/.test(d)`.  Because neither
`[a-z0-9-]*` nor `[a-z]{2,}` can consume a dot, the regex matches exactly
when the part before the FIRST dot is a nonempty label (first character
alphanumeric, rest alphanumeric-or-hyphen) and everything after that dot
is two or more lowercase letters; the match is anchored at both ends. -/
def matchesDomain : Str → Bool
  | [] => false
  | c :: rest =>
    isLowerAlnum c &&
    (rest.takeWhile (fun x => x != '.')).all isLabelChar &&
    (match rest.dropWhile (fun x => x != '.') with
     | [] => false
     | _ :: tld => decide (2 ≤ tld.length) && tld.all isLowerAlpha)

/-- The sanitisation pipeline of check-domains.js lines 22-25:
lowercase and trim each entry, keep the entries passing the regex test,
and take the first 20 survivors. -/
def sanitise (domains : List Str) : List Str :=
  ((domains.map normalise).filter matchesDomain).take 20

/-- JavaScript `"a.b.c".split(".")`: split a string at every dot. -/
def splitOnDot : Str → List Str
  | [] => [[]]
  | c :: rest =>
    if c = '.' then [] :: splitOnDot rest
    else
      match splitOnDot rest with
      | [] => [[c]]
      | p :: ps => (c :: p) :: ps

/-- JavaScript `parts.join(".")`: interleave the parts with dots. -/
def joinDots : List Str → Str
  | [] => []
  | [p] => p
  | p :: ps => p ++ '.' :: joinDots ps

/-- Modelled from the spec: the DomainName grammar of spec section 3,
`label(.label)+` with alphanumeric-with-hyphen labels and a final label of
two or more letters.  This is the grammar the spec claims the sanitiser
enforces; it accepts multi-label domains such as `sub.example.com`. -/
def specGrammar (s : Str) : Bool :=
  let ls := splitOnDot s
  decide (2 ≤ ls.length) &&
  (ls.dropLast.all fun l => !l.isEmpty && l.all isLabelChar) &&
  (match ls.getLast? with
   | some t => decide (2 ≤ t.length) && t.all isLowerAlpha
   | none => false)

/-- Two-label domain grammar, stated independently of the scanner: a first
label consisting of an alphanumeric character followed by
alphanumeric-or-hyphen characters, one dot, and a final label of two or
more lowercase letters. -/
def TwoLabelDomain (s : Str) : Prop :=
  ∃ c a b, s = (c :: a) ++ '.' :: b ∧ isLowerAlnum c = true ∧
    (∀ x ∈ a, isLabelChar x = true) ∧ 2 ≤ b.length ∧
    ∀ x ∈ b, isLowerAlpha x = true

/-- Characters that can occur anywhere in a regex-accepted domain. -/
def domainChar (c : Char) : Bool := isLabelChar c || c == '.'

/-- JavaScript object assignment `m[k] = v`: overwrite the value of an
existing key (keys are unique by construction), else append. -/
def jsSet {α : Type} : List (Str × α) → Str → α → List (Str × α)
  | [], k, v => [(k, v)]
  | (k0, v0) :: rest, k, v =>
    if k0 = k then (k0, v) :: rest else (k0, v0) :: jsSet rest k v

/-- JavaScript object read `m[k]`: the value of the first matching key. -/
def jsGet {α : Type} : List (Str × α) → Str → Option α
  | [], _ => none
  | (k0, v0) :: rest, k => if k0 = k then some v0 else jsGet rest k

/-- Values `parseFloat` can produce apart from `NaN`: an exact rational
(standing for the parsed decimal) or a signed infinity. -/
inductive JsNum where
  | num (q : ℚ)
  | inf (neg : Bool)
deriving DecidableEq

/-- Numeric value of a digit string, most significant digit first. -/
def digitsVal (ds : Str) : ℕ := ds.foldl (fun n c => 10 * n + (c.toNat - 48)) 0

/-- Case-sensitive prefix test, pattern first. -/
def startsWith : Str → Str → Bool
  | [], _ => true
  | _ :: _, [] => false
  | p :: ps, c :: cs => p = c && startsWith ps cs

/-- Exponent digits of a `parseFloat` exponent part; an exponent with no
digits is not part of the parsed prefix and contributes zero. -/
def expDigits (r : Str) (neg : Bool) : ℤ :=
  let ds := r.takeWhile isDigitC
  if ds.isEmpty then 0
  else if neg then -(digitsVal ds : ℤ) else (digitsVal ds : ℤ)

/-- Value of the optional `[eE][+-]?digits` exponent part at `r`. -/
def expVal (r : Str) : ℤ :=
  match r with
  | 'e' :: '+' :: r2 => expDigits r2 false
  | 'e' :: '-' :: r2 => expDigits r2 true
  | 'e' :: r2 => expDigits r2 false
  | 'E' :: '+' :: r2 => expDigits r2 false
  | 'E' :: '-' :: r2 => expDigits r2 true
  | 'E' :: r2 => expDigits r2 false
  | _ => 0

/-- Exact rational value of the signed decimal `ip.fp x 10^e`, computed
with integer arithmetic. -/
def decValue (neg : Bool) (ip fp : Str) (e : ℤ) : ℚ :=
  let n : ℤ := (digitsVal ip * 10 ^ fp.length + digitsVal fp : ℕ)
  let sn : ℤ := if neg then -n else n
  if 0 ≤ e then mkRat (sn * 10 ^ e.toNat) (10 ^ fp.length)
  else mkRat sn (10 ^ fp.length * 10 ^ (-e).toNat)

/-- Unsigned part of `parseFloat` after sign stripping: `Infinity`, or the
longest `digits[.digits][exponent]` prefix; `none` when no digit occurs
before the exponent position (JavaScript `NaN`). -/
def jsParseMagnitude (t : Str) (neg : Bool) : Option JsNum :=
  if startsWith (str "Infinity") t then some (.inf neg)
  else
    let ip := t.takeWhile isDigitC
    let r1 := t.drop ip.length
    match r1 with
    | '.' :: r2 =>
      let fp := r2.takeWhile isDigitC
      if ip.isEmpty && fp.isEmpty then none
      else some (.num (decValue neg ip fp (expVal (r2.drop fp.length))))
    | _ =>
      if ip.isEmpty then none
      else some (.num (decValue neg ip [] (expVal r1)))

/-- JavaScript `parseFloat`: skip leading whitespace, optional sign, then
the longest valid decimal prefix; `none` models `NaN`.  Values are exact
rationals rather than rounded binary doubles; none of the verified claims
depends on rounding, only on `NaN`-ness and sign. -/
def jsParseFloat (s : Str) : Option JsNum :=
  match s.dropWhile isSpaceJs with
  | '+' :: t => jsParseMagnitude t false
  | '-' :: t => jsParseMagnitude t true
  | t => jsParseMagnitude t false

/-- Case-insensitive prefix test against an already-lowercased pattern,
modelling the `i` flag of the source regexes on the ASCII range. -/
def startsWithCI (patLower : Str) (s : Str) : Bool :=
  startsWith patLower ((s.take patLower.length).map lowerChar)

/-- Scanner for `/DomainCheckResult([^>]+)/gi` of check-domains.js line 64:
from left to right, at each occurrence of the element name capture the
following maximal nonempty run of non-`>` characters and resume after it;
the fuel argument (initialised to the string length) bounds the scan. -/
def scanDCRAux : ℕ → Str → List Str
  | 0, _ => []
  | _ + 1, [] => []
  | f + 1, c :: rest =>
    if startsWithCI (str "domaincheckresult") (c :: rest) then
      match ((c :: rest).drop 17).takeWhile (fun x => x != '>') with
      | [] => scanDCRAux f rest
      | a :: attrs => (a :: attrs) :: scanDCRAux f (((c :: rest).drop 17).drop (a :: attrs).length)
    else scanDCRAux f rest

/-- Attribute substrings of all `DomainCheckResult` records in the body. -/
def scanDCR (xml : Str) : List Str := (scanDCRAux xml.length xml)

/-- Scanner for the capture of `/Name="([^"]+)"/i` applied at the leftmost
matching position: find `name="`, capture the maximal nonempty run of
non-quote characters, and require the closing quote (a run stopped by the
end of the string has no closing quote and the scan moves on). -/
def findCapAux (patLower : Str) : ℕ → Str → Option Str
  | 0, _ => none
  | _ + 1, [] => none
  | f + 1, c :: rest =>
    if startsWithCI patLower (c :: rest) then
      let after := (c :: rest).drop patLower.length
      let cap := after.takeWhile (fun x => x != '"')
      if cap.isEmpty then findCapAux patLower f rest
      else if cap.length < after.length then some cap
      else findCapAux patLower f rest
    else findCapAux patLower f rest

/-- First capture of the attribute regex `/name="([^"]+)"/i` in `attrs`. -/
def findCap (patLower : Str) (attrs : Str) : Option Str :=
  findCapAux patLower attrs.length attrs

/-- Lowercase a whole string (JavaScript `toLowerCase`). -/
def lowerStr (s : Str) : Str := s.map lowerChar

/-- One parsed `DomainCheckResult` record of check-domains.js lines 66-71:
domain (lowercased), availability boolean, premium flag, parsed price. -/
structure CheckRec where
  domain : Str
  available : Bool
  isPremium : Bool
  price : Option JsNum
deriving DecidableEq

/-- Field extraction of check-domains.js lines 66-74 for one record.  The
`if (domain)` guard drops records without a `Domain` attribute; a missing
`Available` or `IsPremiumName` capture compares unequal to `"true"` (the
optional-chaining result `undefined` is not `"true"`), and the price is
`parseFloat` of the capture or of the empty string. -/
def recOfAttrs (attrs : Str) : Option CheckRec :=
  match findCap (str "domain=\"") attrs with
  | none => none
  | some d => some
      { domain := lowerStr d
        available := lowerStr ((findCap (str "available=\"") attrs).getD []) == str "true"
        isPremium := lowerStr ((findCap (str "ispremiumname=\"") attrs).getD []) == str "true"
        price := jsParseFloat ((findCap (str "premiumregistrationprice=\"") attrs).getD []) }

/-- All records parsed from the Namecheap response body, in match order. -/
def recsOf (xml : Str) : List CheckRec := (scanDCR xml).filterMap recOfAttrs

/-- Loop body of check-domains.js lines 65-75: record the availability
under the domain key and, when the premium flag is set and the price is
not `NaN`, the premium price. -/
def buildStep (acc : List (Str × Option Bool) × List (Str × JsNum)) (r : CheckRec) :
    List (Str × Option Bool) × List (Str × JsNum) :=
  (jsSet acc.1 r.domain (some r.available),
   match r.isPremium, r.price with
   | true, some v => jsSet acc.2 r.domain v
   | _, _ => acc.2)

/-- The `results` and `premiumPrices` objects built from the parsed
records. -/
def buildResults (recs : List CheckRec) :
    List (Str × Option Bool) × List (Str × JsNum) :=
  recs.foldl buildStep ([], [])

/-- JavaScript `String.prototype.includes`, case-sensitive. -/
def hasSub (pat : Str) : Str → Bool
  | [] => pat.isEmpty
  | c :: rest => startsWith pat (c :: rest) || hasSub pat rest

/-- The explicit error-marker test of check-domains.js line 58. -/
def hasErrorMarker (xml : Str) : Bool :=
  hasSub (str "Status=\"ERROR\"") xml || hasSub (str "ErrCount>0<") xml

/-- JavaScript `url.replace(/\/$/, "")`: drop one trailing slash. -/
def stripTrailingSlash (u : Str) : Str :=
  match u.reverse with
  | '/' :: r => r.reverse
  | _ => u

/-- The `tld` of check-domains.js lines 91-92: split at every dot, drop
the first part, rejoin with dots. -/
def tldOf (domain : Str) : Str := joinDots (splitOnDot domain).tail

/-- The bootstrap-directory loop of check-domains.js lines 102-107: the
first `services` entry whose TLD list contains the TLD and whose URL list
is nonempty yields its first URL with the trailing slash stripped. -/
def findRdapBase : List (List Str × List Str) → Str → Option Str
  | [], _ => none
  | (tlds, urls) :: rest, tld =>
    if tlds.contains tld then
      match urls with
      | [] => findRdapBase rest tld
      | u :: _ => some (stripTrailingSlash u)
    else findRdapBase rest tld

/-- Network oracle for one `rdapCheck` invocation: the outcome of its own
bootstrap-directory fetch (including JSON decoding) and, per request URL,
the status of the RDAP GET.  `Except.error` stands for any thrown
transport error or timeout caught by the `try`/`catch`. -/
structure RdapEnv where
  bootstrap : Except Unit (List (List Str × List Str))
  getStatus : Str → Except Unit ℕ

/-- The `rdapCheck` function of check-domains.js lines 88-134.  The first
component is the `{ domain, available }` record it returns (`available`
tri-state: `some true` = available, `some false` = taken, `none` = the
JavaScript `null`, unknown); the second component counts the bootstrap
fetches the invocation performs — the fetch sits unconditionally at the
start of the `try` block, so every invocation performs exactly one. -/
def rdapCheck (e : RdapEnv) (domain : Str) : (Str × Option Bool) × ℕ :=
  match e.bootstrap with
  | .error _ => ((domain, none), 1)
  | .ok services =>
    match findRdapBase services (tldOf domain) with
    | none => ((domain, none), 1)
    | some rdapBase =>
      match e.getStatus (rdapBase ++ str "/domain/" ++ domain) with
      | .error _ => ((domain, none), 1)
      | .ok status =>
        if status = 404 then ((domain, some true), 1)
        else if status = 200 then ((domain, some false), 1)
        else ((domain, none), 1)

/-- Environment of the Namecheap attempt: the two credential variables
(empty string standing for unset or empty, both falsy in JavaScript) and
the outcome of the single batched fetch plus body read. -/
structure PrimaryEnv where
  ncApiKey : Str
  ncApiUser : Str
  fetchResult : Except Unit Str

/-- Full network environment of one handler invocation: the primary
environment and one independent `RdapEnv` per domain argument. -/
structure HandlerEnv where
  primary : PrimaryEnv
  rdap : Str → RdapEnv

/-- Network-call counts observed during one handler run. -/
structure Trace where
  primaryFetches : ℕ
  rdapCalls : ℕ
  bootstrapFetches : ℕ
deriving DecidableEq

/-- The handler's HTTP response (method handling and CORS aside): a 400
with its message, or a 200 carrying `results`, the `premiumPrices` object
when present (the RDAP response has none), and the `source` tag. -/
inductive Response where
  | badRequest (msg : Str)
  | ok (results : List (Str × Option Bool)) (premiumPrices : Option (List (Str × JsNum)))
      (source : Str)
deriving DecidableEq

/-- The `results` object of the RDAP fan-out, check-domains.js lines
136-144: `Promise.allSettled` over `sanitised.map(rdapCheck)`; `rdapCheck`
catches every failure and always fulfils, so each domain's record is
merged in batch order. -/
def rdapResults (env : HandlerEnv) (batch : List Str) : List (Str × Option Bool) :=
  batch.foldl (fun rs d => jsSet rs (rdapCheck (env.rdap d) d).1.1 (rdapCheck (env.rdap d) d).1.2) []

/-- Total number of bootstrap fetches performed by the fan-out. -/
def bootCount (env : HandlerEnv) (batch : List Str) : ℕ :=
  batch.foldl (fun n d => n + (rdapCheck (env.rdap d) d).2) 0

/-- The RDAP fallback response of check-domains.js line 146, with the
trace of the calls made (`pf` primary fetches happened before falling
back). -/
def fallbackResponse (env : HandlerEnv) (batch : List Str) (pf : ℕ) : Response × Trace :=
  (.ok (rdapResults env batch) none (str "rdap"),
   ⟨pf, batch.length, bootCount env batch⟩)

/-- Truthiness test of check-domains.js line 35: both credential strings
nonempty. -/
def credsConfigured (p : PrimaryEnv) : Bool :=
  !p.ncApiKey.isEmpty && !p.ncApiUser.isEmpty

/-- The 200 response of the successful Namecheap branch, check-domains.js
line 78, with its trace (one primary fetch, no RDAP traffic). -/
def primaryResponse (xml : Str) : Response × Trace :=
  (.ok (buildResults (recsOf xml)).1 (some (buildResults (recsOf xml)).2) (str "namecheap"),
   ⟨1, 0, 0⟩)

/-- The handler of check-domains.js lines 16-146, from the body
destructuring on (method and CORS handling are outside the model, and the
request is taken as carrying a `domains` array).  Empty input and an empty
sanitised batch return the two 400s; with credentials configured the
Namecheap attempt runs and any failure inside the `try` (transport error,
error marker, zero parsed results) falls through to the RDAP fan-out. -/
def handler (env : HandlerEnv) (domains : List Str) : Response × Trace :=
  if domains.length = 0 then
    (.badRequest (str "Missing or invalid domains array"), ⟨0, 0, 0⟩)
  else if (sanitise domains).length = 0 then
    (.badRequest (str "No valid domains provided"), ⟨0, 0, 0⟩)
  else if credsConfigured env.primary then
    match env.primary.fetchResult with
    | .error _ => fallbackResponse env (sanitise domains) 1
    | .ok xml =>
      if hasErrorMarker xml then fallbackResponse env (sanitise domains) 1
      else if 0 < (buildResults (recsOf xml)).1.length then primaryResponse xml
      else fallbackResponse env (sanitise domains) 1
  else fallbackResponse env (sanitise domains) 0

/-- The success condition of the primary path in the claim's terms:
credentials configured, the batched query's transport succeeded, the body
carries no explicit error marker, and at least one per-domain record was
parsed from it. -/
def primaryUsable (p : PrimaryEnv) : Bool :=
  credsConfigured p &&
  match p.fetchResult with
  | .error _ => false
  | .ok xml => !hasErrorMarker xml && !(recsOf xml).isEmpty

/-- Source tag of a response, when it has one. -/
def respSource : Response → Option Str
  | .badRequest _ => none
  | .ok _ _ source => some source

/-- Results object of a response (empty for a 400). -/
def respResults : Response → List (Str × Option Bool)
  | .badRequest _ => []
  | .ok results _ _ => results

/-- Premium-prices object of a response, when the response carries one. -/
def respPremium : Response → Option (List (Str × JsNum))
  | .badRequest _ => none
  | .ok _ p _ => p

/-- Whether a response is the caller-visible 400 failure. -/
def Response.isErr : Response → Bool
  | .badRequest _ => true
  | .ok _ _ _ => false


/-- Environment with no credentials and every network call failing. -/
def envE : HandlerEnv := ⟨⟨[], [], .error ()⟩, fun _ => ⟨.error (), fun _ => .error ()⟩⟩

/-- Sample Namecheap body with a single well-formed record. -/
def xmlW1 : Str := str "<DomainCheckResult Domain=\"foo.io\" Available=\"true\" />"

/-- Environment with credentials configured and a usable primary body. -/
def envW1 : HandlerEnv :=
  ⟨⟨str "key", str "user", .ok xmlW1⟩, fun _ => ⟨.error (), fun _ => .error ()⟩⟩

/-- Secondary-lookup environment answering 404 for every GET. -/
def eW2 : RdapEnv :=
  ⟨.ok [([str "com"], [str "https://rdap.example/"])], fun _ => .ok 404⟩

/-- Secondary-lookup environment answering 200 for every GET. -/
def e200 : RdapEnv :=
  ⟨.ok [([str "com"], [str "https://rdap.example"])], fun _ => .ok 200⟩

/-- Environment without credentials where the lookup of `a.com` fails at
the bootstrap fetch while other domains resolve and answer 404. -/
def envW6 : HandlerEnv :=
  ⟨⟨[], [], .error ()⟩, fun d =>
    if d = str "a.com" then ⟨.error (), fun _ => .error ()⟩
    else ⟨.ok [([str "com"], [str "https://rdap.example"])], fun _ => .ok 404⟩⟩

/-- Namecheap body whose record is flagged premium with price `-1`. -/
def xmlC4 : Str :=
  str "<DomainCheckResult Domain=\"x.com\" Available=\"true\" IsPremiumName=\"true\" PremiumRegistrationPrice=\"-1\" />"

/-- Namecheap body whose record is flagged premium with price `5`. -/
def xmlW4 : Str :=
  str "<DomainCheckResult Domain=\"p.io\" Available=\"false\" IsPremiumName=\"true\" PremiumRegistrationPrice=\"5\" />"

/-- Namecheap body with a record for one batch domain (`mine.com`) and one
record for a domain outside the batch (`other.net`). -/
def xmlW10 : Str :=
  str "<DomainCheckResult Domain=\"mine.com\" Available=\"true\" /><DomainCheckResult Domain=\"other.net\" Available=\"false\" />"

/-- Environment with credentials configured serving `xmlW10`. -/
def envW10 : HandlerEnv :=
  ⟨⟨str "key", str "user", .ok xmlW10⟩, fun _ => ⟨.error (), fun _ => .error ()⟩⟩

theorem takeWhile_neq_dot (a b : Str) (h : ∀ x ∈ a, (x != '.') = true) :
    List.takeWhile (fun x => x != '.') (a ++ '.' :: b) = a := by
  induction a with
  | nil => simp [List.takeWhile_cons]
  | cons x xs ih =>
    have hx := h x (by simp)
    simp only [List.cons_append, List.takeWhile_cons, hx, if_true]
    rw [ih fun y hy => h y (by simp [hy])]

theorem dropWhile_neq_dot (a b : Str) (h : ∀ x ∈ a, (x != '.') = true) :
    List.dropWhile (fun x => x != '.') (a ++ '.' :: b) = '.' :: b := by
  induction a with
  | nil => simp [List.dropWhile_cons]
  | cons x xs ih =>
    have hx := h x (by simp)
    simp only [List.cons_append, List.dropWhile_cons, hx, if_true]
    exact ih fun y hy => h y (by simp [hy])

theorem dropWhile_head_false (p : Char → Bool) (l : Str) (y : Char) (ys : Str)
    (h : l.dropWhile p = y :: ys) : p y = false := by
  induction l with
  | nil => simp [List.dropWhile] at h
  | cons x xs ih =>
    rw [List.dropWhile_cons] at h
    by_cases hp : p x = true
    · rw [if_pos hp] at h; exact ih h
    · rw [if_neg hp] at h
      cases h
      exact Bool.eq_false_iff.mpr hp

theorem labelChar_ne_dot (x : Char) (h : isLabelChar x = true) : (x != '.') = true := by
  rw [bne_iff_ne]
  intro he
  subst he
  simp [isLabelChar, isLowerAlpha, isDigitC] at h

/-- The regex test of the sanitiser accepts exactly the two-label grammar. -/
theorem matchesDomain_iff_twoLabel (s : Str) :
    matchesDomain s = true ↔ TwoLabelDomain s := by
  constructor
  · intro h
    match s with
    | [] => simp [matchesDomain] at h
    | c :: rest =>
      rw [matchesDomain] at h
      simp only [Bool.and_eq_true] at h
      rcases h with ⟨⟨hc, hpre⟩, h2⟩
      rcases hd : List.dropWhile (fun x => x != '.') rest with _ | ⟨y, tld⟩
      · rw [hd] at h2; simp at h2
      · rw [hd] at h2
        simp only [Bool.and_eq_true] at h2
        rcases h2 with ⟨hlen, htld⟩
        have hy : y = '.' := by
          have := dropWhile_head_false _ rest y tld hd
          simpa [bne_eq_false_iff_eq] using this
        refine ⟨c, rest.takeWhile (fun x => x != '.'), tld, ?_, hc, ?_, ?_, ?_⟩
        · have hsplit := List.takeWhile_append_dropWhile (p := fun x => x != '.') (l := rest)
          rw [hd, hy] at hsplit
          rw [List.cons_append, hsplit]
        · intro x hx
          exact List.all_eq_true.mp hpre x hx
        · exact of_decide_eq_true hlen
        · intro x hx
          exact List.all_eq_true.mp htld x hx
  · rintro ⟨c, a, b, hs, hc, ha, hb2, hball⟩
    subst hs
    have hadot : ∀ x ∈ a, (x != '.') = true := fun x hx => labelChar_ne_dot x (ha x hx)
    rw [List.cons_append, matchesDomain]
    rw [takeWhile_neq_dot a b hadot, dropWhile_neq_dot a b hadot]
    simp only [Bool.and_eq_true, List.all_eq_true]
    exact ⟨⟨hc, ha⟩, decide_eq_true hb2, hball⟩

theorem domainChar_of_matches (s : Str) (h : matchesDomain s = true) :
    ∀ x ∈ s, domainChar x = true := by
  rcases (matchesDomain_iff_twoLabel s).mp h with ⟨c, a, b, hs, hc, ha, _, hball⟩
  subst hs
  intro x hx
  rcases List.mem_append.mp hx with hx1 | hx2
  · rcases hx1 with _ | hx1a
    · simp only [isLowerAlnum, Bool.or_eq_true] at hc
      simp only [domainChar, isLabelChar, Bool.or_eq_true]
      rcases hc with h1 | h2
      · exact Or.inl (Or.inl (Or.inl h1))
      · exact Or.inl (Or.inl (Or.inr h2))
    · rename_i hmem
      simp only [domainChar, Bool.or_eq_true]
      exact Or.inl (ha x hmem)
  · rcases hx2 with _ | hx2b
    · simp [domainChar]
    · rename_i hmem
      simp only [domainChar, isLabelChar, Bool.or_eq_true]
      exact Or.inl (Or.inl (Or.inl (hball x hmem)))

theorem lowerChar_fixed (x : Char) (h : domainChar x = true) : lowerChar x = x := by
  simp only [domainChar, isLabelChar, Bool.or_eq_true] at h
  rcases h with h1 | h2
  · rcases h1 with h3 | h4
    · rcases h3 with h5 | h6
      · simp only [isLowerAlpha, Bool.and_eq_true, decide_eq_true_eq] at h5
        rw [lowerChar, if_neg]; omega
      · simp only [isDigitC, Bool.and_eq_true, decide_eq_true_eq] at h6
        rw [lowerChar, if_neg]; omega
    · simp only [decide_eq_true_eq] at h4
      rw [lowerChar, if_neg]; omega
  · have : x = '.' := beq_iff_eq.mp h2
    subst this; decide

theorem not_space_of_domainChar (x : Char) (h : domainChar x = true) :
    isSpaceJs x = false := by
  simp only [domainChar, isLabelChar, Bool.or_eq_true] at h
  rcases h with h1 | h2
  · rcases h1 with h3 | h4
    · rcases h3 with h5 | h6
      · simp only [isLowerAlpha, Bool.and_eq_true, decide_eq_true_eq] at h5
        simp only [isSpaceJs, Bool.or_eq_false_iff, decide_eq_false_iff_not]
        omega
      · simp only [isDigitC, Bool.and_eq_true, decide_eq_true_eq] at h6
        simp only [isSpaceJs, Bool.or_eq_false_iff, decide_eq_false_iff_not]
        omega
    · simp only [decide_eq_true_eq] at h4
      simp only [isSpaceJs, Bool.or_eq_false_iff, decide_eq_false_iff_not]
      omega
  · have : x = '.' := beq_iff_eq.mp h2
    subst this; decide

theorem dropWhile_space_id (l : Str) (h : ∀ x ∈ l, isSpaceJs x = false) :
    l.dropWhile isSpaceJs = l := by
  cases l with
  | nil => rfl
  | cons x xs => rw [List.dropWhile_cons, if_neg (by simp [h x (by simp)])]

theorem jsTrim_fixed (s : Str) (h : ∀ x ∈ s, isSpaceJs x = false) : jsTrim s = s := by
  rw [jsTrim, dropWhile_space_id s h,
      dropWhile_space_id s.reverse (fun x hx => h x (List.mem_reverse.mp hx)),
      List.reverse_reverse]

theorem normalise_fixed (s : Str) (h : ∀ x ∈ s, domainChar x = true) :
    normalise s = s := by
  have hmap : s.map lowerChar = s := by
    have := List.map_congr_left (f := lowerChar) (g := id) (l := s)
      (fun a ha => lowerChar_fixed a (h a ha))
    simpa using this
  rw [normalise, hmap, jsTrim_fixed s (fun x hx => not_space_of_domainChar x (h x hx))]

theorem jsGet_jsSet {α : Type} (m : List (Str × α)) (k d : Str) (v : α) :
    jsGet (jsSet m k v) d = if d = k then some v else jsGet m d := by
  induction m with
  | nil =>
    by_cases h : d = k
    · subst h; simp [jsSet, jsGet]
    · have h2 : ¬(k = d) := fun he => h he.symm
      simp [jsSet, jsGet, h, h2]
  | cons p rest ih =>
    rcases p with ⟨k0, v0⟩
    by_cases h0 : k0 = k
    · subst h0
      by_cases h : d = k0
      · subst h; simp [jsSet, jsGet]
      · have h2 : ¬(k0 = d) := fun he => h he.symm
        simp [jsSet, jsGet, h, h2]
    · by_cases h : d = k0
      · subst h
        simp [jsSet, jsGet, h0]
      · have h2 : ¬(k0 = d) := fun he => h he.symm
        simp [jsSet, jsGet, h0, h, h2, ih]

theorem jsGet_jsSet_isSome {α : Type} (m : List (Str × α)) (k d : Str) (v : α)
    (h : (jsGet m d).isSome = true) : (jsGet (jsSet m k v) d).isSome = true := by
  rw [jsGet_jsSet]
  by_cases hd : d = k <;> simp [hd, h]

theorem jsSet_ne_nil {α : Type} (m : List (Str × α)) (k : Str) (v : α) :
    jsSet m k v ≠ [] := by
  cases m with
  | nil => simp [jsSet]
  | cons p rest =>
    rcases p with ⟨k0, v0⟩
    by_cases h : k0 = k <;> simp [jsSet, h]

theorem buildResults_fst_key (recs : List CheckRec)
    (acc : List (Str × Option Bool) × List (Str × JsNum)) (d : Str) :
    (jsGet (List.foldl buildStep acc recs).1 d).isSome = true ↔
      (jsGet acc.1 d).isSome = true ∨ ∃ r ∈ recs, r.domain = d := by
  induction recs generalizing acc with
  | nil => simp
  | cons r rs ih =>
    rw [List.foldl_cons, ih]
    have hstep : (jsGet (buildStep acc r).1 d).isSome = true ↔
        d = r.domain ∨ (jsGet acc.1 d).isSome = true := by
      show (jsGet (jsSet acc.1 r.domain (some r.available)) d).isSome = true ↔ _
      rw [jsGet_jsSet]
      by_cases hd : d = r.domain <;> simp [hd]
    rw [hstep]
    constructor
    · rintro (⟨h1 | h2⟩ | ⟨r2, hr2, hd2⟩)
      · exact Or.inr ⟨r, by simp, h1.symm⟩
      · exact Or.inl h2
      · exact Or.inr ⟨r2, by simp [hr2], hd2⟩
    · rintro (h1 | ⟨r2, hr2, hd2⟩)
      · exact Or.inl (Or.inr h1)
      · rcases List.mem_cons.mp hr2 with he | hm
        · subst he; exact Or.inl (Or.inl hd2.symm)
        · exact Or.inr ⟨r2, hm, hd2⟩

theorem buildResults_snd_key (recs : List CheckRec)
    (acc : List (Str × Option Bool) × List (Str × JsNum)) (d : Str) :
    (jsGet (List.foldl buildStep acc recs).2 d).isSome = true ↔
      (jsGet acc.2 d).isSome = true ∨
        ∃ r ∈ recs, r.domain = d ∧ r.isPremium = true ∧ r.price.isSome = true := by
  induction recs generalizing acc with
  | nil => simp
  | cons r rs ih =>
    rw [List.foldl_cons, ih]
    have hstep : (jsGet (buildStep acc r).2 d).isSome = true ↔
        (d = r.domain ∧ r.isPremium = true ∧ r.price.isSome = true) ∨
          (jsGet acc.2 d).isSome = true := by
      rcases hp : r.isPremium with _ | _
      · simp [buildStep, hp]
      · rcases hq : r.price with _ | v
        · simp [buildStep, hp, hq]
        · simp only [buildStep, hp, hq]
          rw [jsGet_jsSet]
          by_cases hd : d = r.domain <;> simp [hd, hp, hq]
    rw [hstep]
    constructor
    · rintro (⟨⟨h1, h2, h3⟩ | h4⟩ | ⟨r2, hr2, hd2⟩)
      · exact Or.inr ⟨r, by simp, h1.symm, h2, h3⟩
      · exact Or.inl h4
      · exact Or.inr ⟨r2, by simp [hr2], hd2⟩
    · rintro (h1 | ⟨r2, hr2, hd2⟩)
      · exact Or.inl (Or.inr h1)
      · rcases List.mem_cons.mp hr2 with he | hm
        · subst he
          exact Or.inl (Or.inl ⟨hd2.1.symm, hd2.2⟩)
        · exact Or.inr ⟨r2, hm, hd2⟩

theorem buildResults_fst_nil (recs : List CheckRec)
    (acc : List (Str × Option Bool) × List (Str × JsNum)) :
    (List.foldl buildStep acc recs).1 = [] ↔ acc.1 = [] ∧ recs = [] := by
  induction recs generalizing acc with
  | nil => simp
  | cons r rs ih =>
    rw [List.foldl_cons, ih]
    simp [buildStep, jsSet_ne_nil]

theorem rdapCheck_fst (e : RdapEnv) (d : Str) : (rdapCheck e d).1.1 = d := by
  rcases hb : e.bootstrap with u | svcs
  · simp [rdapCheck, hb]
  · rcases hf : findRdapBase svcs (tldOf d) with _ | base
    · simp [rdapCheck, hb, hf]
    · rcases hg : e.getStatus (base ++ str "/domain/" ++ d) with u | status
      · simp only [rdapCheck, hb, hf]
        rw [hg]
      · simp only [rdapCheck, hb, hf]
        rw [hg]
        by_cases h4 : status = 404
        · simp [h4]
        · by_cases h2 : status = 200 <;> simp [h4, h2]

theorem rdapCheck_snd (e : RdapEnv) (d : Str) : (rdapCheck e d).2 = 1 := by
  rcases hb : e.bootstrap with u | svcs
  · simp [rdapCheck, hb]
  · rcases hf : findRdapBase svcs (tldOf d) with _ | base
    · simp [rdapCheck, hb, hf]
    · rcases hg : e.getStatus (base ++ str "/domain/" ++ d) with u | status
      · simp only [rdapCheck, hb, hf]
        rw [hg]
      · simp only [rdapCheck, hb, hf]
        rw [hg]
        by_cases h4 : status = 404
        · simp [h4]
        · by_cases h2 : status = 200 <;> simp [h4, h2]

theorem bootCount_eq_length (env : HandlerEnv) (batch : List Str) :
    bootCount env batch = batch.length := by
  suffices h : ∀ l n, List.foldl (fun n d => n + (rdapCheck (env.rdap d) d).2) n l = n + l.length by
    simpa using h batch 0
  intro l
  induction l with
  | nil => simp
  | cons x xs ih => intro n; rw [List.foldl_cons, rdapCheck_snd, ih]; simp; omega

theorem rdapResults_preserve (env : HandlerEnv) (batch : List Str)
    (acc : List (Str × Option Bool)) (d : Str) (h : (jsGet acc d).isSome = true) :
    (jsGet (List.foldl
      (fun rs x => jsSet rs (rdapCheck (env.rdap x) x).1.1 (rdapCheck (env.rdap x) x).1.2)
      acc batch) d).isSome = true := by
  induction batch generalizing acc with
  | nil => exact h
  | cons x xs ih => exact ih _ (jsGet_jsSet_isSome _ _ _ _ h)

theorem rdapResults_total (env : HandlerEnv) (batch : List Str) (d : Str)
    (h : d ∈ batch) : (jsGet (rdapResults env batch) d).isSome = true := by
  rw [rdapResults]
  suffices hgen : ∀ l acc, d ∈ l → (jsGet (List.foldl
      (fun rs x => jsSet rs (rdapCheck (env.rdap x) x).1.1 (rdapCheck (env.rdap x) x).1.2)
      acc l) d).isSome = true from hgen batch [] h
  intro l
  induction l with
  | nil => intro acc hc; simp at hc
  | cons x xs ih =>
    intro acc hc
    rcases List.mem_cons.mp hc with he | hm
    · subst he
      rw [List.foldl_cons]
      apply rdapResults_preserve
      rw [rdapCheck_fst, jsGet_jsSet]
      simp
    · rw [List.foldl_cons]
      exact ih _ hm

theorem primaryUsable_elim (p : PrimaryEnv) (h : primaryUsable p = true) :
    ∃ xml, credsConfigured p = true ∧ p.fetchResult = .ok xml ∧
      hasErrorMarker xml = false ∧ recsOf xml ≠ [] := by
  rcases hf : p.fetchResult with u | xml
  · rw [primaryUsable, hf] at h
    simp at h
  · rw [primaryUsable, hf] at h
    simp only [Bool.and_eq_true, Bool.not_eq_true'] at h
    refine ⟨xml, h.1, rfl, h.2.1, ?_⟩
    intro he
    rw [he] at h
    simp at h

theorem handler_primary (env : HandlerEnv) (xs : List Str) (xml : Str)
    (hs : sanitise xs ≠ [])
    (hcreds : credsConfigured env.primary = true)
    (hfetch : env.primary.fetchResult = .ok xml)
    (hmark : hasErrorMarker xml = false)
    (hrecs : recsOf xml ≠ []) :
    handler env xs = primaryResponse xml := by
  have hxs : ¬(xs.length = 0) := by
    intro h0
    rw [List.length_eq_zero] at h0
    subst h0
    exact hs rfl
  have hlen : ¬((sanitise xs).length = 0) := fun h0 => hs (List.length_eq_zero.mp h0)
  have hpos : 0 < (buildResults (recsOf xml)).1.length := by
    rcases h : (buildResults (recsOf xml)).1 with _ | ⟨p, rest⟩
    · rw [buildResults] at h
      exact absurd ((buildResults_fst_nil _ _).mp h).2 hrecs
    · simp [h]
  rw [handler, if_neg hxs, if_neg hlen, if_pos hcreds, hfetch]
  dsimp only
  rw [if_neg (by simp [hmark]), if_pos hpos]

theorem handler_fallback (env : HandlerEnv) (xs : List Str)
    (hs : sanitise xs ≠ [])
    (hnp : primaryUsable env.primary = false) :
    handler env xs = fallbackResponse env (sanitise xs)
      (if credsConfigured env.primary then 1 else 0) := by
  have hxs : ¬(xs.length = 0) := by
    intro h0
    rw [List.length_eq_zero] at h0
    subst h0
    exact hs rfl
  have hlen : ¬((sanitise xs).length = 0) := fun h0 => hs (List.length_eq_zero.mp h0)
  by_cases hc : credsConfigured env.primary = true
  · rw [primaryUsable, hc] at hnp
    simp only [Bool.true_and] at hnp
    rcases hf : env.primary.fetchResult with u | xml
    · rw [handler, if_neg hxs, if_neg hlen, if_pos hc, hf]
      dsimp only
      rw [if_pos hc]
    · rw [hf] at hnp
      dsimp only at hnp
      by_cases hm : hasErrorMarker xml = true
      · rw [handler, if_neg hxs, if_neg hlen, if_pos hc, hf]
        dsimp only
        rw [if_pos hm, if_pos hc]
      · have hm2 : hasErrorMarker xml = false := Bool.eq_false_iff.mpr hm
        have hrec : recsOf xml = [] := by
          rw [hm2] at hnp
          simp only [Bool.not_false, Bool.true_and, Bool.not_eq_false'] at hnp
          exact List.isEmpty_iff.mp hnp
        have hnpos : ¬(0 < (buildResults (recsOf xml)).1.length) := by
          rw [hrec]
          simp [buildResults]
        rw [handler, if_neg hxs, if_neg hlen, if_pos hc, hf]
        dsimp only
        rw [if_neg (by simp [hm2]), if_neg hnpos, if_pos hc]
  · rw [handler, if_neg hxs, if_neg hlen, if_neg hc,
        if_neg (fun h2 : credsConfigured env.primary = true => hc h2)]

theorem handler_ok (env : HandlerEnv) (xs : List Str) (hs : sanitise xs ≠ []) :
    (handler env xs).1.isErr = false := by
  by_cases hu : primaryUsable env.primary = true
  · obtain ⟨xml, hc, hf, hm, hr⟩ := primaryUsable_elim _ hu
    rw [handler_primary env xs xml hs hc hf hm hr]
    rfl
  · rw [handler_fallback env xs hs (Bool.eq_false_iff.mpr hu)]
    rfl

theorem rdapCheck_eval (e : RdapEnv) (d : Str) (svcs : List (List Str × List Str))
    (base : Str) (hb : e.bootstrap = .ok svcs)
    (hf : findRdapBase svcs (tldOf d) = some base) :
    rdapCheck e d = (match e.getStatus (base ++ str "/domain/" ++ d) with
      | .error _ => ((d, none), 1)
      | .ok status =>
        if status = 404 then ((d, some true), 1)
        else if status = 200 then ((d, some false), 1)
        else ((d, none), 1)) := by
  simp only [rdapCheck, hb]
  rw [hf]

/-- Claim C9: sanitisation is idempotent — running the sanitisation
pipeline of check-domains.js lines 22-25 on its own output returns that
output unchanged. -/
theorem claim9_sanitise_idempotent (xs : List Str) :
    sanitise (sanitise xs) = sanitise xs := by
  have hmem : ∀ s ∈ sanitise xs, matchesDomain s = true := by
    intro s hsm
    have h2 : s ∈ (xs.map normalise).filter matchesDomain := List.take_subset _ _ hsm
    exact List.of_mem_filter h2
  have hnorm : (sanitise xs).map normalise = sanitise xs := by
    have h1 : ∀ s ∈ sanitise xs, normalise s = id s := fun s hsm =>
      normalise_fixed s (domainChar_of_matches s (hmem s hsm))
    rw [List.map_congr_left h1, List.map_id]
  show (((sanitise xs).map normalise).filter matchesDomain).take 20 = sanitise xs
  rw [hnorm, List.filter_eq_self.mpr hmem]
  show (((xs.map normalise).filter matchesDomain).take 20).take 20 = sanitise xs
  rw [List.take_take]
  have h20 : (20 : ℕ) ⊓ 20 = 20 := rfl
  rw [h20]
  rfl

/-- Claim C3 counterexample: `sub.example.com` is already normalised and
matches the spec's DomainName grammar `label(.label)+`, yet the
sanitiser's regex drops it — the code accepts exactly two labels, so the
claim that sanitise keeps every grammar-matching entry (multi-label
domains included) is false on this input. -/
theorem claim3_counterexample :
    specGrammar (str "sub.example.com") = true ∧
    normalise (str "sub.example.com") = str "sub.example.com" ∧
    sanitise [str "sub.example.com"] = [] := by decide

/-- Claim C3 as amended: sanitise equals the reference pipeline that
lowercases and trims each entry, keeps exactly the entries matching the
TWO-label grammar (first label alphanumeric-with-hyphen starting
alphanumeric, a single dot, final label of two or more letters — domains
with more than two labels are rejected), and truncates to the first 20
survivors in input order. -/
theorem claim3_amended_two_label :
    (∀ s, matchesDomain s = true ↔ TwoLabelDomain s) ∧
    (∀ xs, sanitise xs = ((xs.map normalise).filter matchesDomain).take 20) :=
  ⟨matchesDomain_iff_twoLabel, fun _ => rfl⟩

theorem claim3_witness : TwoLabelDomain (str "foo.io") :=
  (claim3_amended_two_label.1 (str "foo.io")).mp (by decide)

/-- Claim C4 counterexample: a record flagged premium whose price
attribute parses to `-1` still receives a premium-price entry, so the
claim that an entry is present only when the price parses as a valid
POSITIVE number is false on this body. -/
theorem claim4_counterexample :
    jsGet (buildResults (recsOf xmlC4)).2 (str "x.com") = some (.num (-1)) ∧
    ¬(0 < (-1 : ℚ)) := by decide

/-- Claim C4 as amended: a premium-price entry is present for a domain if
and only if some record parsed from the body carries that domain, has its
premium flag set, and has a price attribute that `parseFloat` does not map
to `NaN` — positivity (or even non-negativity) of the price is not
checked by the code. -/
theorem claim4_amended_premium_iff (xml : Str) (d : Str) :
    (jsGet (buildResults (recsOf xml)).2 d).isSome = true ↔
      ∃ r ∈ recsOf xml, r.domain = d ∧ r.isPremium = true ∧ r.price.isSome = true := by
  rw [buildResults, buildResults_snd_key]
  simp [jsGet]

theorem claim4_witness : (jsGet (buildResults (recsOf xmlW4)).2 (str "p.io")).isSome = true :=
  (claim4_amended_premium_iff xmlW4 (str "p.io")).mpr
    ⟨⟨str "p.io", false, true, some (.num 5)⟩, by decide, rfl, rfl, rfl⟩

/-- Claim C2: the secondary lookup is total by construction (it is a Lean
function) and maps its outcome exactly as claimed: bootstrap fetch failure
gives Unknown (`none`), a missing registry-base mapping for the suffix
gives Unknown, a transport error on the GET gives Unknown, status 404
gives Available (`some true`), status 200 gives Taken (`some false`), and
any other status gives Unknown. -/
theorem claim2_secondary_lookup_table (e : RdapEnv) (d : Str) :
    (∀ u, e.bootstrap = .error u → (rdapCheck e d).1.2 = none) ∧
    (∀ svcs, e.bootstrap = .ok svcs →
      (findRdapBase svcs (tldOf d) = none → (rdapCheck e d).1.2 = none) ∧
      (∀ base, findRdapBase svcs (tldOf d) = some base →
        (∀ u, e.getStatus (base ++ str "/domain/" ++ d) = .error u →
          (rdapCheck e d).1.2 = none) ∧
        (e.getStatus (base ++ str "/domain/" ++ d) = .ok 404 →
          (rdapCheck e d).1.2 = some true) ∧
        (e.getStatus (base ++ str "/domain/" ++ d) = .ok 200 →
          (rdapCheck e d).1.2 = some false) ∧
        (∀ st, e.getStatus (base ++ str "/domain/" ++ d) = .ok st →
          st ≠ 404 → st ≠ 200 → (rdapCheck e d).1.2 = none))) := by
  refine ⟨?_, ?_⟩
  · intro u hb
    simp [rdapCheck, hb]
  · intro svcs hb
    refine ⟨?_, ?_⟩
    · intro hf
      simp [rdapCheck, hb, hf]
    · intro base hf
      refine ⟨?_, ?_, ?_, ?_⟩
      · intro u hg
        rw [rdapCheck_eval e d svcs base hb hf, hg]
      · intro hg
        rw [rdapCheck_eval e d svcs base hb hf, hg]
        simp
      · intro hg
        rw [rdapCheck_eval e d svcs base hb hf, hg]
        simp
      · intro st hg h4 h2
        rw [rdapCheck_eval e d svcs base hb hf, hg]
        simp [h4, h2]

theorem claim2_witness : (rdapCheck eW2 (str "example.com")).1.2 = some true :=
  (((claim2_secondary_lookup_table eW2 (str "example.com")).2 _ rfl).2
    (str "https://rdap.example") (by decide)).2.1 rfl

/-- Claim C1: for a nonempty sanitised batch the response's source tag is
`namecheap` (the primary source) exactly when credentials are configured
and the single batched primary query succeeds with at least one parsed
record; when it is usable no secondary traffic occurs at all, and in every
other case the handler performs at most the one primary fetch (no retry)
and resolves the whole batch through the RDAP fallback with source tag
`rdap`. -/
theorem claim1_primary_source_iff (env : HandlerEnv) (xs : List Str)
    (hs : sanitise xs ≠ []) :
    (respSource (handler env xs).1 = some (str "namecheap") ↔
      primaryUsable env.primary = true) ∧
    (primaryUsable env.primary = true → (handler env xs).2 = ⟨1, 0, 0⟩) ∧
    (primaryUsable env.primary = false →
      respSource (handler env xs).1 = some (str "rdap") ∧
      (handler env xs).2.primaryFetches ≤ 1 ∧
      (handler env xs).2.rdapCalls = (sanitise xs).length) := by
  by_cases hu : primaryUsable env.primary = true
  · obtain ⟨xml, hc, hf, hm, hr⟩ := primaryUsable_elim _ hu
    rw [handler_primary env xs xml hs hc hf hm hr]
    refine ⟨?_, fun _ => rfl, fun hfalse => ?_⟩
    · simp [primaryResponse, respSource, hu]
    · rw [hfalse] at hu
      cases hu
  · have hu2 : primaryUsable env.primary = false := Bool.eq_false_iff.mpr hu
    rw [handler_fallback env xs hs hu2]
    refine ⟨⟨fun hsrc => ?_, fun htrue => absurd htrue hu⟩,
      fun htrue => absurd htrue hu, fun _ => ⟨rfl, ?_, rfl⟩⟩
    · have hne : str "rdap" ≠ str "namecheap" := by decide
      exact absurd (Option.some.inj hsrc) hne
    · by_cases hcc : credsConfigured env.primary = true <;>
        simp [fallbackResponse, hcc]

theorem claim1_witness :
    sanitise [str "foo.io"] ≠ [] ∧
    (respSource (handler envW1 [str "foo.io"]).1 = some (str "namecheap") ↔
      primaryUsable envW1.primary = true) :=
  ⟨by decide, (claim1_primary_source_iff envW1 [str "foo.io"] (by decide)).1⟩

/-- Claim C5: the handler fails with the caller-visible 400 if and only if
sanitisation yields an empty batch (an empty input array included, since
it sanitises to the empty batch); in every other case a 200 resolution
response is returned — primary, bootstrap and per-domain failures are all
absorbed. -/
theorem claim5_validation_error_iff (env : HandlerEnv) (xs : List Str) :
    ((handler env xs).1.isErr = true ↔ sanitise xs = []) ∧
    ((handler env xs).1.isErr = false →
      ∃ results premiumPrices source2, (handler env xs).1 = .ok results premiumPrices source2) := by
  constructor
  · constructor
    · intro herr
      by_contra hne
      rw [handler_ok env xs hne] at herr
      cases herr
    · intro hnil
      rcases hx : xs with _ | ⟨x, rest⟩
      · simp [handler, Response.isErr]
      · subst hx
        have hxs : ¬((x :: rest).length = 0) := by simp
        have hzero : (sanitise (x :: rest)).length = 0 := by rw [hnil]; rfl
        rw [handler, if_neg hxs, if_pos hzero]
        rfl
  · intro hok
    rcases hresp : (handler env xs).1 with m | ⟨r, p, s2⟩
    · rw [hresp] at hok
      cases hok
    · exact ⟨r, p, s2, rfl⟩

theorem claim5_witness : (handler envE []).1.isErr = true :=
  (claim5_validation_error_iff envE []).1.mpr rfl

/-- Claim C6: on the fallback path every domain of the sanitised batch
receives an entry in the returned results object, whatever each domain's
own lookup environment does — one domain's bootstrap failure, transport
error or unknown outcome never removes the entries of the others — and
the source tag is `rdap`. -/
theorem claim6_fallback_total (env : HandlerEnv) (xs : List Str)
    (hnp : primaryUsable env.primary = false) (hs : sanitise xs ≠ []) :
    respSource (handler env xs).1 = some (str "rdap") ∧
    ∀ d ∈ sanitise xs, (jsGet (respResults (handler env xs).1) d).isSome = true := by
  rw [handler_fallback env xs hs hnp]
  exact ⟨rfl, fun d hd => rdapResults_total env (sanitise xs) d hd⟩

theorem claim6_witness :
    primaryUsable envW6.primary = false ∧ sanitise [str "a.com", str "b.com"] ≠ [] ∧
    (jsGet (respResults (handler envW6 [str "a.com", str "b.com"]).1) (str "a.com")).isSome = true ∧
    (jsGet (respResults (handler envW6 [str "a.com", str "b.com"]).1) (str "b.com")).isSome = true :=
  ⟨by decide, by decide,
   (claim6_fallback_total envW6 [str "a.com", str "b.com"] (by decide) (by decide)).2
     (str "a.com") (by decide),
   (claim6_fallback_total envW6 [str "a.com", str "b.com"] (by decide) (by decide)).2
     (str "b.com") (by decide)⟩

/-- Claim C7 counterexample: the only `DomainCheckResult` record of this
body has no `Available` attribute at all, yet the primary path reports its
domain as `some false` — not available, i.e. Taken — because the parser
coerces a missing capture to the boolean `false`.  The claim that a
missing or unparseable availability attribute is never reported as Taken
is therefore false on this body. -/
theorem claim7_counterexample :
    scanDCR (str "<DomainCheckResult Domain=\"x.com\" />") = [str " Domain=\"x.com\" /"] ∧
    findCap (str "available=\"") (str " Domain=\"x.com\" /") = none ∧
    (buildResults (recsOf (str "<DomainCheckResult Domain=\"x.com\" />"))).1 =
      [(str "x.com", some false)] := by decide

/-- Claim C7 as amended: on the secondary path a domain is reported Taken
(`some false`) only on definite evidence — a resolved registry base and an
RDAP status of exactly 200 — so ambiguous or erroring secondary lookups
are always Unknown, never Taken; on the primary path, however, a record's
availability is the plain boolean test `attribute == "true"`, so a record
whose `Available` attribute is missing is reported as not available
(Taken), not as Unknown. -/
theorem claim7_amended_unknown_handling :
    (∀ e d, (rdapCheck e d).1.2 = some false →
      ∃ svcs base, e.bootstrap = .ok svcs ∧
        findRdapBase svcs (tldOf d) = some base ∧
        e.getStatus (base ++ str "/domain/" ++ d) = .ok 200) ∧
    (∀ attrs r, recOfAttrs attrs = some r →
      findCap (str "available=\"") attrs = none → r.available = false) := by
  constructor
  · intro e d htaken
    rcases hb : e.bootstrap with u | svcs
    · simp [rdapCheck, hb] at htaken
    · rcases hf : findRdapBase svcs (tldOf d) with _ | base
      · simp [rdapCheck, hb, hf] at htaken
      · rcases hg : e.getStatus (base ++ str "/domain/" ++ d) with u | status
        · rw [rdapCheck_eval e d svcs base hb hf, hg] at htaken
          simp at htaken
        · by_cases h4 : status = 404
          · rw [rdapCheck_eval e d svcs base hb hf, hg] at htaken
            simp [h4] at htaken
          · by_cases h2 : status = 200
            · subst h2
              exact ⟨svcs, base, rfl, hf, hg⟩
            · rw [rdapCheck_eval e d svcs base hb hf, hg] at htaken
              simp [h4, h2] at htaken
  · intro attrs r hrec hcap
    rw [recOfAttrs] at hrec
    rcases hd : findCap (str "domain=\"") attrs with _ | dm
    · rw [hd] at hrec
      cases hrec
    · rw [hd] at hrec
      have hr := Option.some.inj hrec
      rw [← hr]
      show (lowerStr ((findCap (str "available=\"") attrs).getD []) == str "true") = false
      rw [hcap]
      rfl

theorem claim7_witness :
    (∃ svcs base, e200.bootstrap = .ok svcs ∧
      findRdapBase svcs (tldOf (str "t.com")) = some base ∧
      e200.getStatus (base ++ str "/domain/" ++ str "t.com") = .ok 200) ∧
    (⟨str "x.com", false, false, none⟩ : CheckRec).available = false :=
  ⟨claim7_amended_unknown_handling.1 e200 (str "t.com") (by decide),
   claim7_amended_unknown_handling.2 (str " Domain=\"x.com\" /")
     ⟨str "x.com", false, false, none⟩ (by decide) (by decide)⟩

/-- Claim C8 counterexample: a fallback resolution of a two-domain batch
performs two bootstrap fetches — one inside each `rdapCheck` invocation —
so the claim that the bootstrap directory is fetched at most once per
resolution request (and then served from a cache) is false. -/
theorem claim8_counterexample :
    (handler envE [str "a.com", str "b.io"]).2.bootstrapFetches = 2 ∧
    ¬((handler envE [str "a.com", str "b.io"]).2.bootstrapFetches ≤ 1) := by decide

/-- Claim C8 as amended: there is no cache at all — every `rdapCheck`
invocation performs its own bootstrap fetch, so a fallback resolution of
an N-domain sanitised batch performs exactly N bootstrap fetches. -/
theorem claim8_amended_bootstrap_per_domain (env : HandlerEnv) (xs : List Str)
    (hnp : primaryUsable env.primary = false) (hs : sanitise xs ≠ []) :
    (handler env xs).2.bootstrapFetches = (sanitise xs).length := by
  rw [handler_fallback env xs hs hnp]
  exact bootCount_eq_length env (sanitise xs)

theorem claim8_witness :
    (handler envW6 [str "a.com", str "b.com"]).2.bootstrapFetches =
      (sanitise [str "a.com", str "b.com"]).length :=
  claim8_amended_bootstrap_per_domain envW6 [str "a.com", str "b.com"] (by decide) (by decide)

/-- Claim C10: on the primary-success path the keys of the returned
results object are exactly the lowercased `Domain` attributes of the
records parsed from the response body — a batch domain the body omits gets
no entry, and a record for a domain outside the requested batch is
included all the same. -/
theorem claim10_primary_keys (env : HandlerEnv) (xs : List Str) (xml : Str)
    (hs : sanitise xs ≠ [])
    (hcreds : credsConfigured env.primary = true)
    (hfetch : env.primary.fetchResult = .ok xml)
    (hmark : hasErrorMarker xml = false)
    (hrecs : recsOf xml ≠ []) :
    respResults (handler env xs).1 = (buildResults (recsOf xml)).1 ∧
    ∀ d, (jsGet (respResults (handler env xs).1) d).isSome = true ↔
      d ∈ (recsOf xml).map CheckRec.domain := by
  rw [handler_primary env xs xml hs hcreds hfetch hmark hrecs]
  refine ⟨rfl, fun d => ?_⟩
  show (jsGet (buildResults (recsOf xml)).1 d).isSome = true ↔ _
  rw [buildResults, buildResults_fst_key]
  constructor
  · rintro (hfalse | ⟨r, hr, hd⟩)
    · simp [jsGet] at hfalse
    · exact List.mem_map.mpr ⟨r, hr, hd⟩
  · intro hm
    rcases List.mem_map.mp hm with ⟨r, hr, hd⟩
    exact Or.inr ⟨r, hr, hd⟩

theorem claim10_witness :
    (jsGet (respResults (handler envW10 [str "mine.com", str "gone.com"]).1)
      (str "other.net")).isSome = true ∧
    ¬((jsGet (respResults (handler envW10 [str "mine.com", str "gone.com"]).1)
      (str "gone.com")).isSome = true) :=
  ⟨((claim10_primary_keys envW10 [str "mine.com", str "gone.com"] xmlW10
      (by decide) (by decide) rfl (by decide) (by decide)).2 (str "other.net")).mpr (by decide),
   fun h => absurd (((claim10_primary_keys envW10 [str "mine.com", str "gone.com"] xmlW10
      (by decide) (by decide) rfl (by decide) (by decide)).2 (str "gone.com")).mp h)
     (by decide)⟩
